import Mathlib

/-!
# Verification of win-gui-inspector's walker, mapper and exporters

Shallow embedding of the core logic of `src/win_gui_inspector/inspector.py`
and `src/win_gui_inspector/mapper.py`.

The accessibility platform is external: each platform call that may raise is
modelled by an `Except`/`Option` field on the input node, so the embedding is
a pure function of the (arbitrary) behaviour of the platform on this tree.
-/

namespace WinGuiInspector

/-- Result of the four metadata reads `info.name`, `info.control_type`,
`info.automation_id`, `info.class_name`, each already normalised by the
source's `or ""` (so `None` from the platform is the empty string here). -/
structure ElementInfo where
  name : String
  control_type : String
  automation_id : String
  class_name : String
  deriving Repr, DecidableEq

/-- A bounding rectangle as the source stores it: `left`, `top`,
`width = rect.width()`, `height = rect.height()`. -/
structure Rect where
  left : Int
  top : Int
  width : Int
  height : Int
  deriving Repr, DecidableEq

/-- One live accessibility-tree node, together with the outcome of every
fallible platform call the walkers perform on it:

* `meta`: the block of four metadata reads (`inspector.py` lines 92–96,
  `mapper.py` lines 106–110). `.error e` means that block raises an
  exception whose `str` is `e`; `.ok info` means all four reads succeed.
* `rect`: `element.rectangle()`; `none` means the call raises.
* `legacyValue`: `elem.legacy_properties().get("Value", "")`; `none` means
  the call raises (suppressed in the source), `some v` the returned string.
* `toggleState`: `elem.get_toggle_state()`; `none` means the call raises.
* `childFail`: `none` means iterating `element.children()` succeeds and
  yields every child; `some k` means the enumeration raises after yielding
  the first `k` children.
* `children`: the node's children in platform order. -/
inductive ANode : Type where
  | mk : Except String ElementInfo → Option Rect → Option String → Option Int →
      Option Nat → List ANode → ANode
  deriving Repr

namespace ANode

def meta : ANode → Except String ElementInfo
  | .mk m _ _ _ _ _ => m

def rect : ANode → Option Rect
  | .mk _ r _ _ _ _ => r

def legacyValue : ANode → Option String
  | .mk _ _ v _ _ _ => v

def toggleState : ANode → Option Int
  | .mk _ _ _ t _ _ => t

def childFail : ANode → Option Nat
  | .mk _ _ _ _ cf _ => cf

def children : ANode → List ANode
  | .mk _ _ _ _ _ cs => cs

end ANode

/-- The dictionary `UIInspector.scan_element` builds for one node: either a
normal node (keys `name`, `control_type`, `automation_id`, `class_name`,
`path`, `depth`, `rectangle`, `children`, in the source's fixed key set) or
the error marker `{"error": msg, "depth": depth}`, which carries exactly
those two keys and no `children` key. -/
inductive ScannedElement : Type where
  | node (name control_type automation_id class_name path : String)
      (depth : Nat) (rectangle : Option Rect)
      (children : List ScannedElement)
  | err (msg : String) (depth : Nat)
  deriving Repr

/-- `list.take k` when the enumeration failed after `k` elements, the whole
list when it succeeded. -/
def takeOpt (cf : Option Nat) (l : List α) : List α :=
  match cf with
  | none => l
  | some k => l.take k

/-- Python's `a or b or c` on strings: first non-empty operand.
Source: `path_segment = automation_id or name or control_type`. -/
def pathSegment (automation_id name control_type : String) : String :=
  if automation_id ≠ "" then automation_id
  else if name ≠ "" then name
  else control_type

/-- Source: `current_path = f"{parent_path}/{path_segment}" if parent_path
else path_segment`. -/
def joinPath (parent_path seg : String) : String :=
  if parent_path ≠ "" then parent_path ++ "/" ++ seg else seg

mutual
/-- `UIInspector.scan_element(element, depth, parent_path)` with
`self.max_depth = maxDepth`. Returning `none` models the empty dict `{}`
(falsy, dropped by the parent's `if child_info:`); `some` models a
non-empty dict (always truthy, appended). The outer `try` covers the four
metadata reads; the rectangle read and the children loop each have their
own swallowing handler. -/
def scan_element (maxDepth : Int) (element : ANode) (depth : Nat)
    (parent_path : String) : Option ScannedElement :=
  if (depth : Int) > maxDepth then none
  else
    match element with
    | .mk (.error e) _ _ _ _ _ => some (.err e depth)
    | .mk (.ok info) rect _ _ cf cs =>
      let current_path := joinPath parent_path
        (pathSegment info.automation_id info.name info.control_type)
      let kids := (takeOpt cf (scan_children maxDepth cs (depth + 1)
        current_path)).filterMap id
      some (.node info.name info.control_type info.automation_id
        info.class_name current_path depth rect kids)

/-- The `for child in element.children()` loop body applied to each yielded
child in order. -/
def scan_children (maxDepth : Int) (l : List ANode) (depth : Nat)
    (parent_path : String) : List (Option ScannedElement) :=
  match l with
  | [] => []
  | c :: rest =>
    scan_element maxDepth c depth parent_path ::
      scan_children maxDepth rest depth parent_path
end

/-- One entry of `WindowMapper.map_window_elements`'s output list: the dict
with keys `depth`, `type`, `id`, `name`, `class`, plus `value` (present iff
the computed value string is non-empty) and `checked` (present iff the
toggle read succeeded); absence of the optional keys is `none`. -/
structure FlatRecord where
  depth : Nat
  type : String
  id : String
  name : String
  class_name : String
  value : Option String
  checked : Option Int
  deriving Repr, DecidableEq

/-- The fixed allow-list `useful_types` from `WindowMapper.map_window_elements`. -/
def useful_types : List String :=
  ["Button", "Edit", "CheckBox", "ComboBox", "List", "ListItem",
   "DataGrid", "DataItem", "Tab", "TabItem", "RadioButton",
   "Text", "Table", "TreeItem", "MenuItem"]

mutual
/-- The inner `scan_element(elem, depth)` of
`WindowMapper.map_window_elements` with `self.max_depth = maxDepth`.
The Python closure appends to a shared `elements` list; here each call
returns the sequence of records it appends, in append order. The single
`except Exception: pass` wraps the metadata reads and the children loop,
so a metadata failure contributes nothing and skips the subtree, while a
children-enumeration failure keeps everything appended before it raised. -/
def map_scan (maxDepth : Int) (elem : ANode) (depth : Nat) : List FlatRecord :=
  if (depth : Int) > maxDepth then []
  else
    match elem with
    | .mk (.error _) _ _ _ _ _ => []
    | .mk (.ok info) _ lv tg cf cs =>
      let value := if info.control_type = "Edit" then (lv.getD "") else ""
      let checked := if info.control_type = "CheckBox" then tg else none
      let record : FlatRecord :=
        { depth := depth, type := info.control_type,
          id := info.automation_id, name := info.name,
          class_name := info.class_name,
          value := if value ≠ "" then some value else none,
          checked := checked }
      let self :=
        if info.control_type ∈ useful_types ∧
            (info.automation_id ≠ "" ∨ info.name ≠ "") then [record] else []
      self ++ (takeOpt cf (map_scan_children maxDepth cs (depth + 1))).flatten

/-- The `for child in elem.children()` loop of the flat walker, applied to
each yielded child in order; the element-wise list, flattened by the
caller after the `takeOpt` truncation of a failed enumeration. -/
def map_scan_children (maxDepth : Int) (l : List ANode) (depth : Nat) :
    List (List FlatRecord) :=
  match l with
  | [] => []
  | c :: rest =>
    map_scan maxDepth c depth :: map_scan_children maxDepth rest depth
end

/-- `WindowMapper.map_window_elements(window)`: run the closure walker on
the window's root node at depth 0 and return the accumulated flat list. -/
def map_window_elements (maxDepth : Int) (window : ANode) : List FlatRecord :=
  map_scan maxDepth window 0

/-- One top-level window as the platform enumerates it in
`WindowMapper.find_windows`: the outcome of `win.window_text()` (`none` =
raises), of `win.rectangle()` (`none` = raises) and the plain `win.handle`
value. -/
structure PlatformWindow where
  titleRead : Option String
  rectRead : Option Rect
  handle : Nat
  deriving Repr, DecidableEq

/-- One element of `find_windows`'s result: the dict with keys `title`,
`handle`, `width`, `height`. -/
structure WindowInfo where
  title : String
  handle : Nat
  width : Int
  height : Int
  deriving Repr, DecidableEq

/-- The per-window loop body of `WindowMapper.find_windows`: `none` means
the window is skipped (`continue`), `some` the dict appended to
`windows_info`. -/
def keepWindow (w : PlatformWindow) : Option WindowInfo :=
  match w.titleRead with
  | none => none
  | some title =>
    if title = "" then none
    else
      match w.rectRead with
      | none => none
      | some r =>
        if r.width > 100 ∧ r.height > 100 then
          some { title := title, handle := w.handle,
                 width := r.width, height := r.height }
        else none

/-- `WindowMapper.find_windows` after the platform enumeration produced
`ws` (in platform order): the `for win in all_windows` loop. -/
def find_windows (ws : List PlatformWindow) : List WindowInfo :=
  ws.filterMap keepWindow

/-- The projection `UIInspector.find_elements_by_type` appends for a match:
`{name, automation_id, path, rectangle}` via `.get` with defaults. -/
structure ElementProjection where
  name : String
  automation_id : String
  path : String
  rectangle : Option Rect
  deriving Repr, DecidableEq

mutual
/-- `UIInspector.find_elements_by_type(element, control_type)` on a scanned
dict. An error-marker dict has no `"control_type"` key, so Python's
`element.get("control_type") == control_type` is `None == <str>`, false for
every string query, and its missing `"children"` key yields `[]` to recurse
over. -/
def find_elements_by_type (element : ScannedElement) (control_type : String) :
    List ElementProjection :=
  match element with
  | .err _ _ => []
  | .node name ct aid _ path _ rect kids =>
    (if ct = control_type then [⟨name, aid, path, rect⟩] else []) ++
      find_in_children kids control_type

/-- The `for child in element.get("children", [])` loop of
`find_elements_by_type`, appending into the shared `results` list. -/
def find_in_children (l : List ScannedElement) (control_type : String) :
    List ElementProjection :=
  match l with
  | [] => []
  | c :: rest =>
    find_elements_by_type c control_type ++ find_in_children rest control_type
end

/-! ## Filesystem model for the two exporters

Only the directory-creation behaviour of the exporters is modelled. A path
is its list of components; the filesystem records which directories exist
and which files have been written. The current directory (the empty
component list) always exists. -/

/-- Abstract filesystem state: the set of existing directories (each a list
of path components) and the files written so far (path, content). -/
structure FS where
  dirs : List (List String)
  files : List (List String × String)
  deriving Repr, DecidableEq

/-- A directory exists if it is the current directory or was created. -/
def FS.dirExists (fs : FS) (d : List String) : Bool :=
  d = [] ∨ d ∈ fs.dirs

/-- `Path(p).parent.mkdir(parents=True, exist_ok=True)`: create the parent
directory of `p` and every missing ancestor. -/
def mkdirParents (fs : FS) (p : List String) : FS :=
  let ancestors := (List.range p.dropLast.length).map
    (fun i => p.dropLast.take (i + 1))
  { fs with dirs := fs.dirs ++ ancestors }

/-- `open(p, "w")` followed by a write: succeeds iff the parent directory
exists, else raises (`none`). -/
def openWrite (fs : FS) (p : List String) (content : String) : Option FS :=
  if fs.dirExists p.dropLast then
    some { fs with files := fs.files ++ [(p, content)] }
  else none

/-- The filesystem trace of `UIInspector.export_to_yaml(output_path)`:
`output_path.parent.mkdir(parents=True, exist_ok=True)`, then the write,
then `print(f"[OK] Exported to: {output_path}")` and `return output_path`
— the second component is the reported/returned path. -/
def export_to_yaml (fs : FS) (p : List String) (content : String) :
    FS × Option (List String) :=
  let fs1 := mkdirParents fs p
  match openWrite fs1 p content with
  | some fs2 => (fs2, some p)
  | none => (fs1, none)

/-- The filesystem trace of the export block of `WindowMapper.run`
(`if export_path:` …): `open(export_path, "w")` and `json.dump` directly,
printing the saved path on success; any exception is caught and only an
error message is printed (`none` = no path reported, nothing written). -/
def run_export (fs : FS) (p : List String) (content : String) :
    FS × Option (List String) :=
  match openWrite fs p content with
  | some fs2 => (fs2, some p)
  | none => (fs, none)

/-! ## Specification-side predicates and reference functions

These express the spec's invariants over the embedded definitions above;
they are what the claims quantify over. All are Boolean so that witnesses
can evaluate them on concrete trees. -/

mutual
/-- Every node of the accessibility tree is readable: the metadata-read
block succeeds on it and on all descendants. -/
def allReadable (t : ANode) : Bool :=
  match t with
  | .mk (.error _) _ _ _ _ _ => false
  | .mk (.ok _) _ _ _ _ cs => allReadableList cs

def allReadableList (l : List ANode) : Bool :=
  match l with
  | [] => true
  | c :: rest => allReadable c && allReadableList rest
end

mutual
/-- The depth invariant of the spec, for a scanned subtree that was emitted
at depth `d`: the stored `depth` equals `d` and is `≤ D`, a node stored at
depth exactly `D` has an empty children list, and every child satisfies the
invariant at `d + 1` (so each child's depth is `1 +` its parent's). -/
def depthOk (D : Int) (s : ScannedElement) (d : Nat) : Bool :=
  match s with
  | .err _ dp => dp = d && (dp : Int) ≤ D
  | .node _ _ _ _ _ dp _ kids =>
    dp = d && (dp : Int) ≤ D && (if (dp : Int) = D then kids.isEmpty else true)
      && depthOkList D kids (dp + 1)

def depthOkList (D : Int) (l : List ScannedElement) (d : Nat) : Bool :=
  match l with
  | [] => true
  | c :: rest => depthOk D c d && depthOkList D rest d
end

mutual
/-- The path invariant of the spec, for a scanned subtree whose parent path
was `pp`: a normal node's stored `path` is its parent path joined with its
own segment (automation id if non-empty, else name if non-empty, else
control type, recomputed from the node's stored fields), and every child
satisfies the invariant with this node's stored path as parent path. -/
def pathOk (s : ScannedElement) (pp : String) : Bool :=
  match s with
  | .err _ _ => true
  | .node nm ct aid _ path _ _ kids =>
    path = joinPath pp (pathSegment aid nm ct) && pathOkList kids path

def pathOkList (l : List ScannedElement) (pp : String) : Bool :=
  match l with
  | [] => true
  | c :: rest => pathOk c pp && pathOkList rest pp
end

mutual
/-- The nodes the flat walker visits and fully reads, with the depth each
is visited at, in pre-order (depth-first, a node before its children):
an unreadable node is visited but contributes nothing and cuts its
subtree; a failed children enumeration cuts the children after the first
`k`; nodes beyond the depth bound are not visited. -/
def visitedNodes (D : Int) (t : ANode) (d : Nat) : List (ANode × Nat) :=
  if (d : Int) > D then []
  else
    match t with
    | .mk (.error _) _ _ _ _ _ => []
    | .mk (.ok _) _ _ _ cf cs =>
      (t, d) :: (takeOpt cf (visitedNodesList D cs (d + 1))).flatten

def visitedNodesList (D : Int) (l : List ANode) (d : Nat) :
    List (List (ANode × Nat)) :=
  match l with
  | [] => []
  | c :: rest => visitedNodes D c d :: visitedNodesList D rest d
end

/-- The spec's inclusion filter for the flat list: control type in the
fixed allow-list AND automation id or name non-empty. -/
def passesFilter (p : ANode × Nat) : Bool :=
  match p.1 with
  | .mk (.ok info) _ _ _ _ _ =>
    info.control_type ∈ useful_types &&
      (info.automation_id ≠ "" || info.name ≠ "")
  | .mk (.error _) _ _ _ _ _ => false

/-- The flat record the spec assigns to a visited readable node at depth
`d`: the five metadata fields, `value` present exactly when the node is an
Edit whose legacy read succeeded with a non-empty string, `checked` present
exactly when the node is a CheckBox whose toggle read succeeded. -/
def recordOf (p : ANode × Nat) : FlatRecord :=
  match p.1 with
  | .mk (.ok info) _ lv tg _ _ =>
    { depth := p.2, type := info.control_type, id := info.automation_id,
      name := info.name, class_name := info.class_name,
      value := if info.control_type = "Edit" ∧ lv.getD "" ≠ "" then
          some (lv.getD "") else none,
      checked := if info.control_type = "CheckBox" then tg else none }
  | .mk (.error _) _ _ _ _ _ =>
    { depth := p.2, type := "", id := "", name := "", class_name := "",
      value := none, checked := none }

mutual
/-- All nodes of a scanned tree (error markers included), in pre-order. -/
def allNodes (s : ScannedElement) : List ScannedElement :=
  match s with
  | .err m d => [.err m d]
  | .node nm ct aid cn p d r kids => .node nm ct aid cn p d r kids :: allNodesList kids

def allNodesList (l : List ScannedElement) : List ScannedElement :=
  match l with
  | [] => []
  | c :: rest => allNodes c ++ allNodesList rest
end

/-- The projection a single scanned dict contributes to
`find_elements_by_type` for query `q`: a normal node with matching stored
control type contributes its projection, an error marker (which stores no
control type) contributes nothing for any query. -/
def projectIfMatch (q : String) (s : ScannedElement) : Option ElementProjection :=
  match s with
  | .err _ _ => none
  | .node nm ct aid _ path _ rect _ =>
    if ct = q then some ⟨nm, aid, path, rect⟩ else none

/-! ## Helper lemmas -/

theorem ANode.myInduction (P : ANode → Prop)
    (h : ∀ m r lv tg cf cs, (∀ c ∈ cs, P c) → P (.mk m r lv tg cf cs)) :
    ∀ t, P t
  | .mk m r lv tg cf cs =>
    h m r lv tg cf cs (fun c hc =>
      have : sizeOf c < sizeOf (ANode.mk m r lv tg cf cs) := by
        have h1 := List.sizeOf_lt_of_mem hc
        simp only [ANode.mk.sizeOf_spec]
        omega
      ANode.myInduction P h c)
termination_by t => sizeOf t

theorem ScannedElement.myInduct (P : ScannedElement → Prop)
    (hn : ∀ nm ct aid cn p d r kids, (∀ c ∈ kids, P c) →
      P (.node nm ct aid cn p d r kids))
    (he : ∀ m d, P (.err m d)) :
    ∀ s, P s
  | .err m d => he m d
  | .node nm ct aid cn p d r kids =>
    hn nm ct aid cn p d r kids (fun c hc =>
      have : sizeOf c < sizeOf (ScannedElement.node nm ct aid cn p d r kids) := by
        have h1 := List.sizeOf_lt_of_mem hc
        simp only [ScannedElement.node.sizeOf_spec]
        omega
      ScannedElement.myInduct P hn he c)
termination_by s => sizeOf s

theorem takeOpt_subset (cf : Option Nat) (l : List α) : takeOpt cf l ⊆ l := by
  cases cf with
  | none => exact fun a ha => ha
  | some k => exact List.take_subset k l

theorem scan_children_eq (D : Int) (l : List ANode) (d : Nat) (pp : String) :
    scan_children D l d pp = l.map (fun c => scan_element D c d pp) := by
  induction l with
  | nil => simp [scan_children]
  | cons c rest ih => simp [scan_children, ih]

theorem scan_element_stop (D : Int) (t : ANode) (d : Nat) (pp : String)
    (h : (d : Int) > D) : scan_element D t d pp = none := by
  rw [scan_element.eq_def]
  simp [h]

theorem scan_element_err (D : Int) (e : String) (r : Option Rect)
    (lv : Option String) (tg : Option Int) (cf : Option Nat) (cs : List ANode)
    (d : Nat) (pp : String) (h : ¬ (d : Int) > D) :
    scan_element D (.mk (.error e) r lv tg cf cs) d pp = some (.err e d) := by
  rw [scan_element.eq_def]
  simp [h]

theorem scan_element_ok (D : Int) (info : ElementInfo) (r : Option Rect)
    (lv : Option String) (tg : Option Int) (cf : Option Nat) (cs : List ANode)
    (d : Nat) (pp : String) (h : ¬ (d : Int) > D) :
    scan_element D (.mk (.ok info) r lv tg cf cs) d pp =
      some (.node info.name info.control_type info.automation_id
        info.class_name
        (joinPath pp (pathSegment info.automation_id info.name info.control_type))
        d r
        ((takeOpt cf (cs.map (fun c => scan_element D c (d + 1)
          (joinPath pp (pathSegment info.automation_id info.name
            info.control_type))))).filterMap id)) := by
  rw [scan_element.eq_def]
  simp [h, scan_children_eq]

theorem mem_scanned_kids {D : Int} {cs : List ANode} {cf : Option Nat}
    {d : Nat} {pp : String} {k : ScannedElement}
    (hk : k ∈ (takeOpt cf (cs.map (fun c => scan_element D c d pp))).filterMap id) :
    ∃ c ∈ cs, scan_element D c d pp = some k := by
  rcases List.mem_filterMap.mp hk with ⟨o, ho, rfl⟩
  have ho2 := takeOpt_subset cf _ ho
  rcases List.mem_map.mp ho2 with ⟨c, hc, hco⟩
  exact ⟨c, hc, hco⟩

theorem depthOkList_iff (D : Int) (l : List ScannedElement) (d : Nat) :
    depthOkList D l d = true ↔ ∀ s ∈ l, depthOk D s d = true := by
  induction l with
  | nil => simp [depthOkList]
  | cons c rest ih => simp [depthOkList, ih]

theorem pathOkList_iff (l : List ScannedElement) (pp : String) :
    pathOkList l pp = true ↔ ∀ s ∈ l, pathOk s pp = true := by
  induction l with
  | nil => simp [pathOkList]
  | cons c rest ih => simp [pathOkList, ih]

theorem allReadableList_iff (l : List ANode) :
    allReadableList l = true ↔ ∀ c ∈ l, allReadable c = true := by
  induction l with
  | nil => simp [allReadableList]
  | cons c rest ih => simp [allReadableList, ih]

/-- The depth invariant holds for every subtree `scan_element` emits,
whatever the tree, the depth bound and the starting depth. -/
theorem scan_depthOk (D : Int) (t : ANode) :
    ∀ d pp s, scan_element D t d pp = some s → depthOk D s d = true := by
  induction t using ANode.myInduction with
  | _ m r lv tg cf cs ih =>
    intro d pp s hs
    by_cases hd : (d : Int) > D
    · rw [scan_element_stop D _ d pp hd] at hs
      exact absurd hs (by simp)
    · cases m with
      | error e =>
        rw [scan_element_err D e r lv tg cf cs d pp hd] at hs
        cases hs
        simp [depthOk]
        omega
      | ok info =>
        rw [scan_element_ok D info r lv tg cf cs d pp hd] at hs
        cases hs
        simp only [depthOk, Bool.and_eq_true, decide_eq_true_eq]
        refine ⟨⟨⟨by simp, by omega⟩, ?_⟩, ?_⟩
        · split
          · next hdD =>
            have hnil : ((takeOpt cf (cs.map (fun c => scan_element D c (d + 1)
                (joinPath pp (pathSegment info.automation_id info.name
                  info.control_type))))).filterMap id) = [] := by
              rw [List.filterMap_eq_nil_iff]
              intro o ho
              have ho2 := takeOpt_subset cf _ ho
              rcases List.mem_map.mp ho2 with ⟨c, _, rfl⟩
              exact scan_element_stop D c (d + 1) _ (by omega)
            simp [hnil]
          · rfl
        · rw [depthOkList_iff]
          intro k hk
          rcases mem_scanned_kids hk with ⟨c, hc, hck⟩
          exact ih c hc (d + 1) _ k hck

/-- C1: for every accessibility tree in which every node is readable and
every `maxDepth = D ≥ 0`, `scan_element` at the root yields a tree in which
every emitted node's stored depth is at most `D` and equals the depth it
was emitted at (root `0`, each child `1 +` its parent), and every node
emitted at depth exactly `D` has an empty children list even when the
underlying node has children. -/
theorem C1_scan_depth_invariant (D : Int) (t : ANode) (hD : 0 ≤ D)
    (hr : allReadable t = true) :
    ∃ s, scan_element D t 0 "" = some s ∧ depthOk D s 0 = true := by
  match t with
  | .mk (.error e) r lv tg cf cs => simp [allReadable] at hr
  | .mk (.ok info) r lv tg cf cs =>
    refine ⟨_, scan_element_ok D info r lv tg cf cs 0 "" (by omega), ?_⟩
    exact scan_depthOk D _ 0 "" _ (scan_element_ok D info r lv tg cf cs 0 "" (by omega))

/-- Witness for C1: a readable two-level tree scanned with `D = 1`; the
grandchild at depth 2 is cut and the depth-1 child keeps an empty children
list even though the underlying node has a child. -/
theorem C1_scan_depth_invariant_witness :
    (0 : Int) ≤ 1 ∧
    allReadable (.mk (.ok ⟨"", "Window", "", "WC"⟩) none none none none
      [.mk (.ok ⟨"OK", "Button", "102", "BC"⟩) none none none none
        [.mk (.ok ⟨"deep", "Text", "", "TC"⟩) none none none none []]]) = true ∧
    ∃ s, scan_element 1 (.mk (.ok ⟨"", "Window", "", "WC"⟩) none none none none
      [.mk (.ok ⟨"OK", "Button", "102", "BC"⟩) none none none none
        [.mk (.ok ⟨"deep", "Text", "", "TC"⟩) none none none none []]]) 0 "" =
      some s ∧ depthOk 1 s 0 = true :=
  ⟨by decide, by rfl,
    C1_scan_depth_invariant 1 _ (by decide) (by rfl)⟩

/-- The path invariant holds for every subtree `scan_element` emits. -/
theorem scan_pathOk (t : ANode) :
    ∀ D d pp s, scan_element D t d pp = some s → pathOk s pp = true := by
  induction t using ANode.myInduction with
  | _ m r lv tg cf cs ih =>
    intro D d pp s hs
    by_cases hd : (d : Int) > D
    · rw [scan_element_stop D _ d pp hd] at hs
      exact absurd hs (by simp)
    · cases m with
      | error e =>
        rw [scan_element_err D e r lv tg cf cs d pp hd] at hs
        cases hs
        simp [pathOk]
      | ok info =>
        rw [scan_element_ok D info r lv tg cf cs d pp hd] at hs
        cases hs
        simp only [pathOk, Bool.and_eq_true, decide_eq_true_eq]
        refine ⟨by simp, ?_⟩
        rw [pathOkList_iff]
        intro k hk
        rcases mem_scanned_kids hk with ⟨c, hc, hck⟩
        exact ih c hc D (d + 1) _ k hck

/-- C3: every node `scan_element` emits stores as `path` its parent path
joined (with `/` when the parent path is non-empty, alone otherwise) with
its own segment — automation id if non-empty, else name if non-empty, else
control type — and this holds independently at each level of the emitted
tree, each child using its parent's stored path. -/
theorem C3_path_construction (D : Int) (t : ANode) (d : Nat) (pp : String)
    (s : ScannedElement) (hs : scan_element D t d pp = some s) :
    pathOk s pp = true :=
  scan_pathOk t D d pp s hs

/-- Witness for C3: the spec's own example — a root with empty name/id and
control type `Window` gets path `Window`, its child with automation id
`102` gets path `Window/102`. -/
theorem C3_path_construction_witness :
    scan_element 4 (.mk (.ok ⟨"", "Window", "", "WC"⟩) none none none none
        [.mk (.ok ⟨"OK", "Button", "102", "BC"⟩) none none none none []]) 0 "" =
      some (.node "" "Window" "" "WC" "Window" 0 none
        [.node "OK" "Button" "102" "BC" "Window/102" 1 none []]) ∧
    pathOk (.node "" "Window" "" "WC" "Window" 0 none
      [.node "OK" "Button" "102" "BC" "Window/102" 1 none []]) "" = true :=
  ⟨by rfl,
    C3_path_construction 4
      (.mk (.ok ⟨"", "Window", "", "WC"⟩) none none none none
        [.mk (.ok ⟨"OK", "Button", "102", "BC"⟩) none none none none []]) 0 ""
      (.node "" "Window" "" "WC" "Window" 0 none
        [.node "OK" "Button" "102" "BC" "Window/102" 1 none []]) (by rfl)⟩

/-- `scan_element` yields a (truthy) dict whenever the depth bound is not
exceeded: every visited node produces an entry for its parent's list. -/
theorem scan_element_isSome (D : Int) (t : ANode) (d : Nat) (pp : String)
    (hd : ¬ (d : Int) > D) : (scan_element D t d pp).isSome := by
  match t with
  | .mk (.error e) r lv tg cf cs =>
    rw [scan_element_err D e r lv tg cf cs d pp hd]
    rfl
  | .mk (.ok info) r lv tg cf cs =>
    rw [scan_element_ok D info r lv tg cf cs d pp hd]
    rfl

/-- C2: a node whose metadata-read block raises with message `e` is emitted
as exactly the error marker `{error: e, depth: d}` — no `children` key, no
other field — whatever its subtree (`cs` free: the subtree is never
visited); and a readable parent holding such a node among its children
still gets the error entry in its children list, in position, with every
sibling scanned as usual. -/
theorem C2_metadata_failure_marker (D : Int) (d : Nat) (_hd : (d : Int) ≤ D)
    (e : String) (r : Option Rect) (lv : Option String) (tg : Option Int)
    (cf : Option Nat) (cs : List ANode) (pp : String) (info : ElementInfo)
    (pr : Option Rect) (plv : Option String) (ptg : Option Int)
    (pre post : List ANode) (hd1 : (d : Int) + 1 ≤ D) :
    scan_element D (.mk (.error e) r lv tg cf cs) d pp = some (.err e d) ∧
    scan_element D
        (.mk (.ok info) pr plv ptg none
          (pre ++ (.mk (.error e) r lv tg cf cs) :: post)) d pp =
      some (.node info.name info.control_type info.automation_id
        info.class_name
        (joinPath pp (pathSegment info.automation_id info.name info.control_type))
        d pr
        ((pre.map (fun c => scan_element D c (d + 1)
            (joinPath pp (pathSegment info.automation_id info.name
              info.control_type)))).filterMap id ++
          .err e (d + 1) ::
          (post.map (fun c => scan_element D c (d + 1)
            (joinPath pp (pathSegment info.automation_id info.name
              info.control_type)))).filterMap id)) := by
  constructor
  · exact scan_element_err D e r lv tg cf cs d pp (by omega)
  · rw [scan_element_ok D info pr plv ptg none _ d pp (by omega)]
    rw [takeOpt]
    rw [List.map_append, List.map_cons]
    rw [List.filterMap_append, List.filterMap_cons]
    rw [scan_element_err D e r lv tg cf cs (d + 1) _ (by omega)]
    rfl

/-- Witness for C2: a broken child between two readable siblings under a
readable root, with `D = 2`. -/
theorem C2_metadata_failure_marker_witness :
    ((0 : Int) ≤ 2 ∧ (0 : Int) + 1 ≤ 2) ∧
    (scan_element 2 (.mk (.error "stale handle") none none none none
        [.mk (.ok ⟨"x", "Text", "", "TC"⟩) none none none none []]) 0 "w" =
      some (.err "stale handle" 0) ∧
    scan_element 2
        (.mk (.ok ⟨"", "Window", "", "WC"⟩) none none none none
          ([.mk (.ok ⟨"a", "Button", "", "BC"⟩) none none none none []] ++
            (.mk (.error "stale handle") none none none none
              [.mk (.ok ⟨"x", "Text", "", "TC"⟩) none none none none []]) ::
            [.mk (.ok ⟨"b", "Button", "", "BC"⟩) none none none none []])) 0 "w" =
      some (.node "" "Window" "" "WC"
        (joinPath "w" (pathSegment "" "" "Window")) 0 none
        (([ANode.mk (.ok ⟨"a", "Button", "", "BC"⟩) none none none none []].map
            (fun c => scan_element 2 c 1
              (joinPath "w" (pathSegment "" "" "Window")))).filterMap id ++
          .err "stale handle" 1 ::
          ([ANode.mk (.ok ⟨"b", "Button", "", "BC"⟩) none none none none []].map
            (fun c => scan_element 2 c 1
              (joinPath "w" (pathSegment "" "" "Window")))).filterMap id))) :=
  ⟨⟨by decide, by decide⟩,
    C2_metadata_failure_marker 2 0 (by decide) "stale handle" none none none
      none [.mk (.ok ⟨"x", "Text", "", "TC"⟩) none none none none []] "w"
      ⟨"", "Window", "", "WC"⟩ none none none
      [.mk (.ok ⟨"a", "Button", "", "BC"⟩) none none none none []]
      [.mk (.ok ⟨"b", "Button", "", "BC"⟩) none none none none []] (by decide)⟩

/-- C7: a readable node whose children enumeration raises after yielding
`k` children is emitted exactly as if the enumeration had succeeded on
those first `k` children: a normal node (never an error marker, so nothing
propagates to the parent) whose children are the scans of the collected
prefix (possibly none). -/
theorem C7_child_enumeration_failure (D : Int) (info : ElementInfo)
    (r : Option Rect) (lv : Option String) (tg : Option Int) (k : Nat)
    (cs : List ANode) (d : Nat) (pp : String) (hd : (d : Int) ≤ D) :
    scan_element D (.mk (.ok info) r lv tg (some k) cs) d pp =
      scan_element D (.mk (.ok info) r lv tg none (cs.take k)) d pp ∧
    scan_element D (.mk (.ok info) r lv tg (some k) cs) d pp =
      some (.node info.name info.control_type info.automation_id
        info.class_name
        (joinPath pp (pathSegment info.automation_id info.name info.control_type))
        d r
        (((cs.take k).map (fun c => scan_element D c (d + 1)
          (joinPath pp (pathSegment info.automation_id info.name
            info.control_type)))).filterMap id)) := by
  have h1 := scan_element_ok D info r lv tg (some k) cs d pp (by omega)
  have h2 := scan_element_ok D info r lv tg none (cs.take k) d pp (by omega)
  rw [takeOpt] at h1
  rw [takeOpt] at h2
  rw [← List.map_take] at h1
  exact ⟨h1.trans h2.symm, h1⟩

/-- Witness for C7: enumeration fails after yielding one of two children;
the node is emitted normally with just that first child. -/
theorem C7_child_enumeration_failure_witness :
    (0 : Int) ≤ 3 ∧
    (scan_element 3 (.mk (.ok ⟨"", "Pane", "root", "PC"⟩) none none none (some 1)
        [.mk (.ok ⟨"a", "Button", "", "BC"⟩) none none none none [],
         .mk (.ok ⟨"b", "Button", "", "BC"⟩) none none none none []]) 0 "" =
      scan_element 3 (.mk (.ok ⟨"", "Pane", "root", "PC"⟩) none none none none
        ([ANode.mk (.ok ⟨"a", "Button", "", "BC"⟩) none none none none [],
          .mk (.ok ⟨"b", "Button", "", "BC"⟩) none none none none []].take 1)) 0 "" ∧
    scan_element 3 (.mk (.ok ⟨"", "Pane", "root", "PC"⟩) none none none (some 1)
        [.mk (.ok ⟨"a", "Button", "", "BC"⟩) none none none none [],
         .mk (.ok ⟨"b", "Button", "", "BC"⟩) none none none none []]) 0 "" =
      some (.node "" "Pane" "root" "PC"
        (joinPath "" (pathSegment "root" "" "Pane")) 0 none
        ((([ANode.mk (.ok ⟨"a", "Button", "", "BC"⟩) none none none none [],
            .mk (.ok ⟨"b", "Button", "", "BC"⟩) none none none none []].take 1).map
          (fun c => scan_element 3 c 1
            (joinPath "" (pathSegment "root" "" "Pane")))).filterMap id))) :=
  ⟨by decide,
    C7_child_enumeration_failure 3 ⟨"", "Pane", "root", "PC"⟩ none none none 1
      [.mk (.ok ⟨"a", "Button", "", "BC"⟩) none none none none [],
       .mk (.ok ⟨"b", "Button", "", "BC"⟩) none none none none []] 0 "" (by decide)⟩

theorem find_children_eq (q : String) (l : List ScannedElement)
    (h : ∀ c ∈ l, find_elements_by_type c q =
      (allNodes c).filterMap (projectIfMatch q)) :
    find_in_children l q = (allNodesList l).filterMap (projectIfMatch q) := by
  induction l with
  | nil => simp [find_in_children, allNodesList]
  | cons c rest ih =>
    simp only [find_in_children, allNodesList, List.filterMap_append]
    rw [h c (by simp), ih (fun c hc => h c (by simp [hc]))]

theorem find_eq_filterMap (s : ScannedElement) (q : String) :
    find_elements_by_type s q = (allNodes s).filterMap (projectIfMatch q) := by
  induction s using ScannedElement.myInduct with
  | hn nm ct aid cn p d r kids ih =>
    rw [find_elements_by_type, allNodes, List.filterMap_cons]
    rw [find_children_eq q kids (fun c hc => ih c hc)]
    by_cases hq : ct = q
    · simp [projectIfMatch, hq]
    · simp [projectIfMatch, hq]
  | he m d =>
    simp [find_elements_by_type, allNodes, allNodesList, projectIfMatch]

/-- C10: `find_elements_by_type` never returns a projection of an
error-marker node: an error marker stores no control type, so on its own it
matches no query — the empty string included — and on any scanned tree the
result is exactly the pre-order node list filtered through
`projectIfMatch`, which sends every error marker to `none` for every query;
hence error markers appear in no bucket of the grouped export (whose
buckets are `find_elements_by_type` calls). -/
theorem C10_error_marker_never_projected :
    (∀ m d q, find_elements_by_type (.err m d) q = []) ∧
    (∀ s q, find_elements_by_type s q =
      (allNodes s).filterMap (projectIfMatch q)) :=
  ⟨fun _ _ _ => rfl, fun s q => find_eq_filterMap s q⟩

theorem map_scan_children_eq (D : Int) (l : List ANode) (d : Nat) :
    map_scan_children D l d = l.map (fun c => map_scan D c d) := by
  induction l with
  | nil => simp [map_scan_children]
  | cons c rest ih => simp [map_scan_children, ih]

theorem map_scan_stop (D : Int) (t : ANode) (d : Nat) (h : (d : Int) > D) :
    map_scan D t d = [] := by
  rw [map_scan.eq_def]
  simp [h]

theorem map_scan_err (D : Int) (e : String) (r : Option Rect)
    (lv : Option String) (tg : Option Int) (cf : Option Nat) (cs : List ANode)
    (d : Nat) : map_scan D (.mk (.error e) r lv tg cf cs) d = [] := by
  rw [map_scan.eq_def]
  by_cases h : (d : Int) > D <;> simp [h]

/-- The record the flat walker builds for a readable node is the spec's
`recordOf` of that node. -/
theorem source_record_eq_recordOf (info : ElementInfo) (r : Option Rect)
    (lv : Option String) (tg : Option Int) (cf : Option Nat) (cs : List ANode)
    (d : Nat) :
    ({ depth := d, type := info.control_type, id := info.automation_id,
       name := info.name, class_name := info.class_name,
       value := if (if info.control_type = "Edit" then lv.getD "" else "") ≠ ""
         then some (if info.control_type = "Edit" then lv.getD "" else "")
         else none,
       checked := if info.control_type = "CheckBox" then tg else none } :
      FlatRecord) = recordOf (⟨.mk (.ok info) r lv tg cf cs, d⟩) := by
  by_cases h : info.control_type = "Edit" <;> simp [recordOf, h]

theorem map_scan_ok (D : Int) (info : ElementInfo) (r : Option Rect)
    (lv : Option String) (tg : Option Int) (cf : Option Nat) (cs : List ANode)
    (d : Nat) (h : ¬ (d : Int) > D) :
    map_scan D (.mk (.ok info) r lv tg cf cs) d =
      (if passesFilter (⟨.mk (.ok info) r lv tg cf cs, d⟩) then
        [recordOf (⟨.mk (.ok info) r lv tg cf cs, d⟩)] else []) ++
      (takeOpt cf (cs.map (fun c => map_scan D c (d + 1)))).flatten := by
  rw [map_scan.eq_def]
  simp only [h, if_false, map_scan_children_eq]
  rw [source_record_eq_recordOf info r lv tg cf cs d]
  by_cases hp : info.control_type ∈ useful_types ∧
      (info.automation_id ≠ "" ∨ info.name ≠ "")
  · have hb : passesFilter (⟨.mk (.ok info) r lv tg cf cs, d⟩) = true := by
      simp [passesFilter, hp.1, hp.2]
    simp [hp, hb]
  · have hb : passesFilter (⟨.mk (.ok info) r lv tg cf cs, d⟩) = false := by
      simp only [passesFilter, Bool.and_eq_false_iff]
      by_cases h1 : info.control_type ∈ useful_types
      · right
        simp only [not_and_or] at hp
        rcases hp with hp | hp
        · exact absurd h1 hp
        · simp only [not_or, not_not] at hp
          simp [hp.1, hp.2]
      · left
        simp [h1]
    simp [hp, hb]

theorem visitedNodesList_eq (D : Int) (l : List ANode) (d : Nat) :
    visitedNodesList D l d = l.map (fun c => visitedNodes D c d) := by
  induction l with
  | nil => simp [visitedNodesList]
  | cons c rest ih => simp [visitedNodesList, ih]

theorem takeOpt_map (cf : Option Nat) (l : List α) (f : α → β) :
    (takeOpt cf l).map f = takeOpt cf (l.map f) := by
  cases cf with
  | none => rfl
  | some k => simp [takeOpt, List.map_take]

theorem filter_flatten (L : List (List α)) (p : α → Bool) :
    L.flatten.filter p = (L.map (List.filter p)).flatten := by
  induction L with
  | nil => rfl
  | cons l rest ih => simp [List.filter_append, ih]

theorem map_flatten (L : List (List α)) (f : α → β) :
    L.flatten.map f = (L.map (List.map f)).flatten := by
  induction L with
  | nil => rfl
  | cons l rest ih => simp [ih]

/-- The flat walker's output is exactly the pre-order visited-node sequence
filtered by the spec's inclusion filter and projected to records. -/
theorem map_scan_eq_spec (D : Int) (t : ANode) :
    ∀ d, map_scan D t d =
      ((visitedNodes D t d).filter passesFilter).map recordOf := by
  induction t using ANode.myInduction with
  | _ m r lv tg cf cs ih =>
    intro d
    by_cases hd : (d : Int) > D
    · rw [map_scan_stop D _ d hd, visitedNodes.eq_def]
      simp [hd]
    · cases m with
      | error e =>
        rw [map_scan_err, visitedNodes.eq_def]
        simp [hd]
      | ok info =>
        rw [map_scan_ok D info r lv tg cf cs d hd, visitedNodes.eq_def]
        simp only [hd, if_false]
        have htail :
            (((takeOpt cf (visitedNodesList D cs (d + 1))).flatten).filter
              passesFilter).map recordOf =
            (takeOpt cf (cs.map (fun c => map_scan D c (d + 1)))).flatten := by
          rw [filter_flatten, map_flatten, takeOpt_map, takeOpt_map,
            visitedNodesList_eq, List.map_map, List.map_map]
          congr 2
          apply List.map_congr_left
          intro c hc
          simp only [Function.comp]
          exact (ih c hc (d + 1)).symm
        rw [List.filter_cons]
        by_cases hp : passesFilter (⟨.mk (.ok info) r lv tg cf cs, d⟩) = true
        · rw [if_pos hp, if_pos hp, List.map_cons, htail]
          simp
        · rw [if_neg hp, if_neg hp, htail]
          simp

/-- C4: in flat-mapping mode the output is exactly the pre-order
(depth-first, node before children) sequence of visited readable nodes,
kept if and only if the node's control type is in the fixed 15-element
allow-list and its automation id or name is non-empty, and projected to its
record — so filtering decides inclusion only, while descent into children
is part of `visitedNodes` for every readable visited node regardless of the
filter. -/
theorem C4_flat_mapping_filter_and_order (D : Int) (w : ANode) :
    map_window_elements D w =
      ((visitedNodes D w 0).filter passesFilter).map recordOf :=
  map_scan_eq_spec D w 0

/-- C9: in flat-mapping mode a node whose metadata read raises contributes
no record and no error marker whatever its subtree (the children are never
visited: the result is `[]` for every subtree `cs`), and the surrounding
walk is unaffected — a readable parent's output with the broken child among
its children equals its output with that child removed. -/
theorem C9_flat_metadata_failure_skips_subtree :
    (∀ (D : Int) (e : String) (r : Option Rect) (lv : Option String)
      (tg : Option Int) (cf : Option Nat) (cs : List ANode) (d : Nat),
      map_scan D (.mk (.error e) r lv tg cf cs) d = []) ∧
    (∀ (D : Int) (info : ElementInfo) (pr : Option Rect) (plv : Option String)
      (ptg : Option Int) (e : String) (br : Option Rect) (blv : Option String)
      (btg : Option Int) (bcf : Option Nat) (bcs : List ANode)
      (pre post : List ANode) (d : Nat),
      map_scan D (.mk (.ok info) pr plv ptg none
        (pre ++ (.mk (.error e) br blv btg bcf bcs) :: post)) d =
      map_scan D (.mk (.ok info) pr plv ptg none (pre ++ post)) d) := by
  constructor
  · intro D e r lv tg cf cs d
    exact map_scan_err D e r lv tg cf cs d
  · intro D info pr plv ptg e br blv btg bcf bcs pre post d
    by_cases hd : (d : Int) > D
    · rw [map_scan_stop D _ d hd, map_scan_stop D _ d hd]
    · rw [map_scan_ok D info pr plv ptg none _ d hd,
        map_scan_ok D info pr plv ptg none _ d hd]
      congr 1
      rw [takeOpt, takeOpt, List.map_append, List.map_append, List.map_cons]
      rw [map_scan_err D e br blv btg bcf bcs (d + 1)]
      simp

/-- C8: the record of an included Edit node carries `value = v` exactly
when the legacy read succeeded with the non-empty string `v` (a failed or
empty read just omits the field, with no error and the record still
emitted), and it never carries `checked`; the record of an included
CheckBox node carries `checked` exactly as the toggle read returned it
(`none` = failed read, field omitted, no error) and never carries
`value`. -/
theorem C8_edit_value_and_checkbox_state (D : Int) (d : Nat)
    (hd : (d : Int) ≤ D) (info : ElementInfo) (r : Option Rect)
    (lv : Option String) (tg : Option Int) (cf : Option Nat) (cs : List ANode)
    (hid : info.automation_id ≠ "" ∨ info.name ≠ "") :
    (info.control_type = "Edit" →
      ∃ rec rest, map_scan D (.mk (.ok info) r lv tg cf cs) d = rec :: rest ∧
        (∀ v, rec.value = some v ↔ lv = some v ∧ v ≠ "") ∧
        rec.checked = none) ∧
    (info.control_type = "CheckBox" →
      ∃ rec rest, map_scan D (.mk (.ok info) r lv tg cf cs) d = rec :: rest ∧
        rec.checked = tg ∧ rec.value = none) := by
  have hmain := map_scan_ok D info r lv tg cf cs d (by omega)
  constructor
  · intro hct
    have hp : passesFilter (⟨.mk (.ok info) r lv tg cf cs, d⟩) = true := by
      simp [passesFilter, hct, useful_types, hid]
    rw [hp] at hmain
    simp only [if_pos] at hmain
    refine ⟨_, _, hmain, ?_, ?_⟩
    · intro v
      cases lv with
      | none => simp [recordOf, hct]
      | some v0 =>
        by_cases hv : v0 = ""
        · simp only [recordOf, hct, Option.getD_some]
          rw [hv]
          simp only [ne_eq, not_true_eq_false, and_false, if_false]
          constructor
          · intro h
            exact Option.noConfusion h
          · rintro ⟨h1, h2⟩
            exact absurd (Option.some.inj h1).symm h2
        · simp only [recordOf, hct, Option.getD_some, ne_eq, Option.some.injEq]
          rw [if_pos (by exact ⟨trivial, hv⟩)]
          simp only [Option.some.injEq]
          constructor
          · intro h
            refine ⟨h, ?_⟩
            rw [← h]
            exact hv
          · intro h
            exact h.1
    · have : info.control_type ≠ "CheckBox" := by
        rw [hct]
        decide
      simp [recordOf, this]
  · intro hct
    have hp : passesFilter (⟨.mk (.ok info) r lv tg cf cs, d⟩) = true := by
      simp [passesFilter, hct, useful_types, hid]
    rw [hp] at hmain
    simp only [if_pos] at hmain
    refine ⟨_, _, hmain, ?_, ?_⟩
    · simp [recordOf, hct]
    · have : info.control_type ≠ "Edit" := by
        rw [hct]
        decide
      simp [recordOf, this]

/-- Witness for C8: the spec's example — an Edit with legacy value `7203`
surfaces `value = "7203"`, a CheckBox with toggle state `1` surfaces
`checked = 1`. -/
theorem C8_edit_value_and_checkbox_state_witness :
    ((0 : Int) ≤ 5 ∧ (("f1" : String) ≠ "" ∨ ("amount" : String) ≠ "") ∧
      (("cb" : String) ≠ "" ∨ ("agree" : String) ≠ "")) ∧
    (∃ rec rest, map_scan 5
        (.mk (.ok ⟨"amount", "Edit", "f1", "EC"⟩) none (some "7203") none
          none []) 0 = rec :: rest ∧
      (∀ v, rec.value = some v ↔ some "7203" = some v ∧ v ≠ "") ∧
      rec.checked = none) ∧
    (∃ rec rest, map_scan 5
        (.mk (.ok ⟨"agree", "CheckBox", "cb", "CC"⟩) none none (some 1)
          none []) 0 = rec :: rest ∧
      rec.checked = some 1 ∧ rec.value = none) :=
  ⟨⟨by decide, by decide, by decide⟩,
    (C8_edit_value_and_checkbox_state 5 0 (by decide)
      ⟨"amount", "Edit", "f1", "EC"⟩ none (some "7203") none none []
      (by left; decide)).1 rfl,
    (C8_edit_value_and_checkbox_state 5 0 (by decide)
      ⟨"agree", "CheckBox", "cb", "CC"⟩ none none (some 1) none []
      (by left; decide)).2 rfl⟩

/-- The spec's retention rule for one enumerated window: the title read
succeeds and is non-empty, the rectangle read succeeds, and
`width > 100 and height > 100`. -/
def windowKept (w : PlatformWindow) : Bool :=
  match w.titleRead, w.rectRead with
  | some t, some r => t ≠ "" && r.width > 100 && r.height > 100
  | _, _ => false

/-- The descriptor a kept window contributes: its title, handle, and the
width/height from its rectangle. -/
def windowDescriptor (w : PlatformWindow) : WindowInfo :=
  { title := w.titleRead.getD "", handle := w.handle,
    width := (w.rectRead.getD ⟨0, 0, 0, 0⟩).width,
    height := (w.rectRead.getD ⟨0, 0, 0, 0⟩).height }

theorem keepWindow_eq (w : PlatformWindow) :
    keepWindow w = if windowKept w then some (windowDescriptor w) else none := by
  rcases w with ⟨t?, r?, h⟩
  cases t? with
  | none => rfl
  | some t =>
    cases r? with
    | none =>
      by_cases ht : t = "" <;> simp [keepWindow, windowKept, ht]
    | some r =>
      by_cases ht : t = ""
      · simp [keepWindow, windowKept, ht]
      · by_cases hw : r.width > 100 <;> by_cases hh : r.height > 100 <;>
          simp [keepWindow, windowKept, windowDescriptor, ht, hw, hh]

/-- C5: `find_windows` keeps exactly the enumerated windows whose title
read succeeds with a non-empty title, whose rectangle read succeeds, and
whose width and height both exceed 100 — every other window is dropped
with no error surfaced (the function is total and returns only the
filtered list) — and the result is the platform's enumeration order
filtered in place, with no re-sorting. -/
theorem C5_find_windows_filter_and_order (ws : List PlatformWindow) :
    find_windows ws = (ws.filter windowKept).map windowDescriptor := by
  induction ws with
  | nil => rfl
  | cons w rest ih =>
    rw [find_windows, List.filterMap_cons, List.filter_cons, keepWindow_eq]
    rw [find_windows] at ih
    cases hk : windowKept w with
    | false => simp [hk, ih]
    | true => simp [hk, ih]

/-- C6 is false on the code: the flat-map JSON export of
`WindowMapper.run` opens the output path directly; on a filesystem where
the parent directory `out` does not exist, it creates no directory, writes
nothing, and reports no path (the caught failure only prints an error). -/
theorem C6_counterexample :
    (run_export ⟨[], []⟩ ["out", "map.json"] "{}").1.dirs = [] ∧
    (run_export ⟨[], []⟩ ["out", "map.json"] "{}").1.files = [] ∧
    (run_export ⟨[], []⟩ ["out", "map.json"] "{}").2 = none := by
  decide

theorem mkdirParents_files (fs : FS) (p : List String) :
    (mkdirParents fs p).files = fs.files := rfl

theorem mkdirParents_mem_take (fs : FS) (p : List String) (i : Nat)
    (hi : i < p.dropLast.length) :
    p.dropLast.take (i + 1) ∈ (mkdirParents fs p).dirs := by
  unfold mkdirParents
  simp only [List.mem_append, List.mem_map, List.mem_range]
  exact Or.inr ⟨i, hi, rfl⟩

theorem mkdirParents_parent_exists (fs : FS) (p : List String) :
    (mkdirParents fs p).dirExists p.dropLast = true := by
  rw [FS.dirExists, decide_eq_true_eq]
  by_cases h : p.dropLast = []
  · exact Or.inl h
  · right
    have hn : 0 < p.dropLast.length := List.length_pos.mpr h
    have := mkdirParents_mem_take fs p (p.dropLast.length - 1) (by omega)
    rwa [Nat.sub_add_cancel hn, List.take_length] at this

/-- C6 amended: the grouped-by-type YAML exporter first creates every
missing ancestor directory of the output path, always writes, and reports
the final path; the flat-map JSON exporter creates no directories at all —
it reports the final path exactly when the parent directory already
exists, and otherwise leaves the filesystem untouched and reports no
path. -/
theorem C6_amended_export_directories (fs : FS) (p : List String)
    (content : String) :
    ((export_to_yaml fs p content).2 = some p ∧
     (export_to_yaml fs p content).1.files = fs.files ++ [(p, content)] ∧
     (∀ i, i < p.dropLast.length →
       p.dropLast.take (i + 1) ∈ (export_to_yaml fs p content).1.dirs)) ∧
    ((run_export fs p content).1.dirs = fs.dirs ∧
     ((run_export fs p content).2 = some p ↔
       fs.dirExists p.dropLast = true) ∧
     (fs.dirExists p.dropLast = false →
       run_export fs p content = (fs, none))) := by
  constructor
  · have hw : openWrite (mkdirParents fs p) p content =
        some { mkdirParents fs p with
          files := (mkdirParents fs p).files ++ [(p, content)] } := by
      rw [openWrite, if_pos (mkdirParents_parent_exists fs p)]
    rw [export_to_yaml, hw]
    refine ⟨rfl, by rw [mkdirParents_files], ?_⟩
    intro i hi
    exact mkdirParents_mem_take fs p i hi
  · rw [run_export, openWrite]
    cases hb : fs.dirExists p.dropLast with
    | false => simp [hb]
    | true => simp [hb]

/-- Witness for C6's amended claim: on an empty filesystem and output path
`a/b/f.txt`, the YAML exporter reports the path and has created `a` and
`a/b`, while the JSON exporter reports nothing. -/
theorem C6_amended_export_directories_witness :
    (export_to_yaml ⟨[], []⟩ ["a", "b", "f.txt"] "x").2 =
      some ["a", "b", "f.txt"] ∧
    ["a"] ∈ (export_to_yaml ⟨[], []⟩ ["a", "b", "f.txt"] "x").1.dirs ∧
    ["a", "b"] ∈ (export_to_yaml ⟨[], []⟩ ["a", "b", "f.txt"] "x").1.dirs ∧
    (run_export ⟨[], []⟩ ["a", "b", "f.txt"] "x").2 = none :=
  ⟨(C6_amended_export_directories ⟨[], []⟩ ["a", "b", "f.txt"] "x").1.1,
   (C6_amended_export_directories ⟨[], []⟩ ["a", "b", "f.txt"] "x").1.2.2 0
     (by decide),
   (C6_amended_export_directories ⟨[], []⟩ ["a", "b", "f.txt"] "x").1.2.2 1
     (by decide),
   by
    rw [((C6_amended_export_directories ⟨[], []⟩ ["a", "b", "f.txt"] "x").2.2.2
      (by decide))]⟩

end WinGuiInspector
